import Mathlib

/-!
Verification of the AD799x I2C enrichable-analyzer decoder.

The development shallow-embeds `scripts/i2c/AD799x.py`: the per-packet frame
store is an association list keyed by the optional packet identifier, Python
exceptions that the code lets escape are modelled by `Except.error`, Python
exceptions that the code catches (the `IndexError` around the rank-0 frame
lookup) are modelled by `Option` pattern matches, and the heterogeneous Python
lists returned to the host are lists of `PyVal` (strings or ints).  Floating
point reference voltages are modelled as rationals; the fixed-point rendering
`format4` coincides with CPython's `"{:.4f}"` on every value used below, all
of which are exactly representable dyadic rationals with exact 4-decimal
expansions.
-/

set_option maxRecDepth 100000

namespace AD799x

/-- A value in a Python list returned to the host: the analyzer mixes
strings and raw ints (the read rank-1 bubble's last entry is an int). -/
inductive PyVal where
  | pyStr (s : String)
  | pyInt (n : Nat)
deriving DecidableEq, Repr

/-- One stored frame: the dict
`{'frame_index': …, 'frame_type': …, 'flags': …, 'value': …}`. -/
structure Frame where
  frame_index : Nat
  frame_type : Nat
  flags : Nat
  value : Nat
deriving DecidableEq, Repr

/-- `packet_id` is `Optional[int]` on the Python side. -/
abbrev PacketId := Option Nat

/-- The `self._packets` dict, as an association list. -/
abbrev Packets := List (PacketId × List Frame)

/-- Immutable per-instance configuration: `self._address`, `self._bits`,
`self._reference_voltage` (a float, modelled as an optional rational). -/
structure Config where
  address : Nat
  bits : Nat
  reference_voltage : Option ℚ

/-- Dictionary lookup `self._packets.get(packet_id)` /
`packet_id in self._packets`. -/
def lookupPacket : Packets → PacketId → Option (List Frame)
  | [], _ => none
  | (p, l) :: rest, pid => if p = pid then some l else lookupPacket rest pid

/-- Dictionary assignment `self._packets[packet_id] = frames`. -/
def setPacket : Packets → PacketId → List Frame → Packets
  | [], pid, fs => [(pid, fs)]
  | (p, l) :: rest, pid, fs =>
      if p = pid then (pid, fs) :: rest else (p, l) :: setPacket rest pid fs

/-- `self._packets.get(packet_id, [])` (the raw, unsorted frame list). -/
def framesOf (pkts : Packets) (pid : PacketId) : List Frame :=
  (lookupPacket pkts pid).getD []

/-- `store_frame`: create the packet's list if absent, then append the frame
unless one with the same `frame_index` is already present. -/
def store_frame (pkts : Packets) (packet_id : PacketId)
    (frame_index frame_type flags value : Nat) : Packets :=
  let pkts1 := if (lookupPacket pkts packet_id).isSome then pkts
               else setPacket pkts packet_id []
  let cur := (lookupPacket pkts1 packet_id).getD []
  if cur.any (fun f => f.frame_index == frame_index) then pkts1
  else setPacket pkts1 packet_id
    (cur ++ [{ frame_index := frame_index, frame_type := frame_type,
               flags := flags, value := value }])

/-- The sort key `lambda f: f['frame_index']` as a relation; Python's
`sorted` is stable, as is `List.insertionSort`. -/
def frameLE (a b : Frame) : Prop := a.frame_index ≤ b.frame_index

instance : DecidableRel frameLE := fun a b => Nat.decLe _ _

instance : IsTotal Frame frameLE := ⟨fun a b => Nat.le_total _ _⟩

instance : IsTrans Frame frameLE := ⟨fun _ _ _ h1 h2 => Nat.le_trans h1 h2⟩

/-- `get_packet_frames`: all stored frames sorted ascending by index. -/
def get_packet_frames (pkts : Packets) (pid : PacketId) : List Frame :=
  List.insertionSort frameLE (framesOf pkts pid)

/-- `get_packet_length`: `len(self._packets[packet_id])`; `none` models the
`KeyError` raised when the packet was never stored. -/
def get_packet_length (pkts : Packets) (pid : PacketId) : Option Nat :=
  (lookupPacket pkts pid).map List.length

/-- `get_packet_frame_index`: the rank of a raw `frame_index` inside the
sorted frame list; `none` models the `ValueError` raised by `list.index`
when the position was never stored. -/
def get_packet_frame_index (pkts : Packets) (pid : PacketId)
    (frame_index : Nat) : Option Nat :=
  ((get_packet_frames pkts pid).map (fun f => f.frame_index)).findIdx?
    (fun x => x = frame_index)

/-- `get_packet_nth_frame`: indexing into the sorted list; `none` models
the `IndexError` on an out-of-range rank. -/
def get_packet_nth_frame (pkts : Packets) (pid : PacketId) (idx : Nat) :
    Option Frame :=
  (get_packet_frames pkts pid)[idx]?

/-- `handle_marker` stores the frame and returns an empty list; it is total
and never raises. -/
def handle_marker (pkts : Packets) (packet_id : PacketId)
    (frame_index frame_type flags value1 : Nat) : Packets × List PyVal :=
  (store_frame pkts packet_id frame_index frame_type flags value1, [])

/-- `get_configuration_settings`: channels from bits 7..4, features from
bits 3..0 (the lower three are enabled when their bit is clear).  Dict
iteration order in CPython is insertion order, kept here as list order. -/
def get_configuration_settings (value : Nat) :
    List String × List (String × String) :=
  let ch3 := value &&& (1 <<< 7)
  let ch2 := value &&& (1 <<< 6)
  let ch1 := value &&& (1 <<< 5)
  let ch0 := value &&& (1 <<< 4)
  let channels : List (String × Nat) := [("0", ch0), ("1", ch1), ("2", ch2), ("3", ch3)]
  let channels_enabled := (channels.filter (fun c => c.2 != 0)).map (fun c => c.1)
  let ref_sel := value &&& (1 <<< 3)
  let fltr := value &&& (1 <<< 2)
  let bit_trial := value &&& (1 <<< 1)
  let sample := value &&& (1 <<< 0)
  let features : List ((String × String) × Bool) :=
    [(("External Reference", "Ext Ref"), ref_sel != 0),
     (("SDA and SCL Filtering", "Filter"), !(fltr != 0)),
     (("Bit Trial Delay", "Bit Trial"), !(bit_trial != 0)),
     (("Sample Delay", "Samp. Del."), !(sample != 0))]
  let features_enabled := (features.filter (fun f => f.2)).map (fun f => f.1)
  (channels_enabled, features_enabled)

/-- `get_adc_channel`: bits 5:4 of the first data byte. -/
def get_adc_channel (frame1 : Nat) : Nat :=
  (frame1 >>> 4) &&& 0b11

/-- `get_adc_value`: left shift the low nibble of frame 1 by `bits - 4`,
right shift frame 2 by `-(bits - 12)`, and add.  The shift amounts are
Python ints; a negative shift raises `ValueError`, modelled as `none`. -/
def get_adc_value (bits : Nat) (frame1 frame2 : Nat) : Option Nat :=
  let frame_one_left_shift : Int := (bits : Int) - 4
  let frame_two_right_shift : Int := 0 - ((bits : Int) - 12)
  if frame_one_left_shift < 0 ∨ frame_two_right_shift < 0 then none
  else some (((frame1 &&& 0b1111) <<< frame_one_left_shift.toNat)
             + (frame2 >>> frame_two_right_shift.toNat))

/-- Python `bin(n)` for a nonnegative `n`: `"0b"` followed by the binary
digits (with `bin(0) = "0b0"`). -/
def pyBin (n : Nat) : String :=
  "0b" ++ String.mk (Nat.toDigits 2 n)

/-- Python truthiness of the optional reference voltage:
`not self._reference_voltage` is true for `None` and for `0.0`. -/
def pyFalsyFloat : Option ℚ → Bool
  | none => true
  | some r => r == 0

/-- Left-pad a natural's decimal digits with zeros to 4 places. -/
def pad4 (k : Nat) : String :=
  let s := toString k
  String.mk (List.replicate (4 - s.length) '0') ++ s

/-- CPython's `"{:.4f}"` on the exact rational value: round half up to the
nearest ten-thousandth (`⌊q·10000 + 1/2⌋`, computed directly on the
numerator and denominator) and print with 4 decimal places.  Agrees with
float formatting on every exactly-representable, non-tie value used
below. -/
def format4 (q : ℚ) : String :=
  let n : ℤ := (q.num * 20000 + (q.den : ℤ)).fdiv (2 * (q.den : ℤ))
  let sign := if n < 0 then "-" else ""
  let m := n.natAbs
  sign ++ toString (m / 10000) ++ "." ++ pad4 (m % 10000)

/-- `get_displayable_adc_value`: the raw code as decimal text when no
(truthy) reference voltage is configured, otherwise
`"{voltage:.4f} V ({raw})"` with `voltage = value / 2**bits * ref`. -/
def get_displayable_adc_value (cfg : Config) (value : Nat) : String :=
  if pyFalsyFloat cfg.reference_voltage then toString value
  else
    let r := cfg.reference_voltage.getD 0
    let voltage := ((value : ℚ) / (2 ^ cfg.bits)) * r
    format4 voltage ++ " V (" ++ toString value ++ ")"

/-- The six-element list of the write rank-1 bubble branch (lines 251–281 of
the source): four verbosity levels of channel/feature text, then channels
only, then `bin(value)`. -/
def writeConfigBubbles (value : Nat) : List PyVal :=
  let cs := get_configuration_settings value
  let ch_enabled := cs.1
  let feat_enabled := cs.2
  [.pyStr ("Channels: " ++ String.intercalate ", " ch_enabled
           ++ "; Features: " ++ String.intercalate ", " (feat_enabled.map (fun f => f.1))),
   .pyStr ("Ch: " ++ String.intercalate "/" ch_enabled
           ++ "; Feat: " ++ String.intercalate "/" (feat_enabled.map (fun f => f.2))),
   .pyStr ("Ch: " ++ String.intercalate "/" ch_enabled
           ++ "; Feat: " ++ pyBin (value &&& 0b1111)),
   .pyStr ("Ch: " ++ String.intercalate "/" ch_enabled),
   .pyStr (String.intercalate "/" ch_enabled),
   .pyStr (pyBin value)]

/-- `handle_bubble`.  The initial `IndexError` around the rank-0 lookup is
caught by the source (`return []`); the later `list.index` (`ValueError`),
`self._packets[...]` (`KeyError`), nth-frame (`IndexError`) and negative
shift (`ValueError`) failures are uncaught, so they surface as
`Except.error`. -/
def handle_bubble (cfg : Config) (pkts : Packets) (packet_id : PacketId)
    (frame_index : Nat) (value : Nat) : Except String (List PyVal) :=
  match get_packet_nth_frame pkts packet_id 0 with
  | none => .ok []
  | some address_frame =>
    if address_frame.value >>> 1 != cfg.address then .ok []
    else
      let is_read : Bool := address_frame.value &&& 0b1 != 0
      let is_write : Bool := !is_read
      match get_packet_length pkts packet_id with
      | none => .error "KeyError"
      | some plen =>
        if (!(plen == 2) && is_write) || (!(plen == 3) && is_read) then .ok []
        else
          match get_packet_frame_index pkts packet_id frame_index with
          | none => .error "ValueError"
          | some rank =>
            if is_write then
              if rank == 0 then
                .ok [.pyStr "Write to ADC Configuration", .pyStr "W to ADC", .pyStr "W"]
              else if rank == 1 then
                .ok (writeConfigBubbles value)
              else
                .ok [.pyStr (pyBin value)]
            else
              if rank == 0 then
                .ok [.pyStr "Read ADC Value", .pyStr "R from ADC", .pyStr "R"]
              else if rank == 1 then
                let channel := get_adc_channel value
                .ok [.pyStr ("Channel: " ++ toString channel),
                     .pyStr ("Ch: " ++ toString channel),
                     .pyInt channel]
              else if rank == 2 then
                match get_packet_nth_frame pkts packet_id 1 with
                | none => .error "IndexError"
                | some frame_one =>
                  match get_adc_value cfg.bits frame_one.value value with
                  | none => .error "ValueError"
                  | some adc_result =>
                    .ok [.pyStr (get_displayable_adc_value cfg adc_result)]
              else
                .ok [.pyStr (pyBin value)]

/-- `handle_tabular`.  Same guards as `handle_bubble`, but every early exit
returns the placeholder `[' ']`, and only the rank-1 frame produces a
summary line. -/
def handle_tabular (cfg : Config) (pkts : Packets) (packet_id : PacketId)
    (frame_index : Nat) (sda : Nat) : Except String (List PyVal) :=
  let no_result : List PyVal := [.pyStr " "]
  match get_packet_nth_frame pkts packet_id 0 with
  | none => .ok no_result
  | some address_frame =>
    if address_frame.value >>> 1 != cfg.address then .ok no_result
    else
      let is_read : Bool := address_frame.value &&& 0b1 != 0
      let is_write : Bool := !is_read
      match get_packet_length pkts packet_id with
      | none => .error "KeyError"
      | some plen =>
        if (!(plen == 2) && is_write) || (!(plen == 3) && is_read) then .ok no_result
        else
          match get_packet_frame_index pkts packet_id frame_index with
          | none => .error "ValueError"
          | some rank =>
            if rank != 1 then .ok no_result
            else if is_write then
              match get_packet_nth_frame pkts packet_id 1 with
              | none => .error "IndexError"
              | some configuration_frame =>
                let cs := get_configuration_settings configuration_frame.value
                .ok [.pyStr ("[ADC config] Channels enabled: "
                      ++ String.intercalate ", " cs.1
                      ++ "; Features enabled: "
                      ++ String.intercalate ", " (cs.2.map (fun f => f.1)))]
            else if is_read then
              match get_packet_nth_frame pkts packet_id 1,
                    get_packet_nth_frame pkts packet_id 2 with
              | some frame_one, some frame_two =>
                let channel := get_adc_channel frame_one.value
                match get_adc_value cfg.bits frame_one.value frame_two.value with
                | none => .error "ValueError"
                | some adc_result =>
                  .ok [.pyStr ("[ADC read] channel " ++ toString channel ++ ": "
                        ++ get_displayable_adc_value cfg adc_result)]
              | _, _ => .error "IndexError"
            else .ok no_result

/-! ### Helper lemmas -/

/-- Evaluation of `get_adc_value` at the three supported resolutions. -/
theorem get_adc_value_eq (f1 f2 : Nat) :
    get_adc_value 8 f1 f2 = some (((f1 &&& 15) <<< 4) + (f2 >>> 4))
    ∧ get_adc_value 10 f1 f2 = some (((f1 &&& 15) <<< 6) + (f2 >>> 2))
    ∧ get_adc_value 12 f1 f2 = some (((f1 &&& 15) <<< 8) + (f2 >>> 0)) :=
  ⟨rfl, rfl, rfl⟩

/-- When a packet has at least one stored frame, `get_packet_length` is the
length of its raw frame list. -/
theorem get_packet_length_eq (pkts : Packets) (pid : PacketId)
    (h : framesOf pkts pid ≠ []) :
    get_packet_length pkts pid = some (framesOf pkts pid).length := by
  unfold get_packet_length framesOf at *
  cases hl : lookupPacket pkts pid with
  | none => rw [hl] at h; simp at h
  | some l => simp

/-- A packet whose rank-0 frame exists has a nonempty raw frame list. -/
theorem framesOf_ne_nil_of_nth (pkts : Packets) (pid : PacketId) (af : Frame)
    (h0 : get_packet_nth_frame pkts pid 0 = some af) :
    framesOf pkts pid ≠ [] := by
  intro h
  unfold get_packet_nth_frame get_packet_frames at h0
  rw [h] at h0
  simp [List.insertionSort] at h0

/-! ### Claims -/

/-- C2: for resolutions 8, 10 and 12 and any frame bytes, `get_adc_value`
computes `((f1 & 0xF) << (bits − 4)) + (f2 >> (12 − bits))`; in particular
frames `0x0A`/`0xBC` give 2748 at 12 bits and 171 at 8 bits. -/
theorem C2_adc_value_formula :
    (∀ bits f1 f2 : Nat, bits = 8 ∨ bits = 10 ∨ bits = 12 →
      get_adc_value bits f1 f2
        = some (((f1 &&& 0xF) <<< (bits - 4)) + (f2 >>> (12 - bits))))
    ∧ get_adc_value 12 0x0A 0xBC = some 2748
    ∧ get_adc_value 8 0x0A 0xBC = some 171 := by
  refine ⟨?_, by decide, by decide⟩
  rintro bits f1 f2 (rfl | rfl | rfl) <;> rfl

/-- Witness for C2 at resolution 8, frames `0x3A`/`0xBC`. -/
theorem C2_adc_value_formula_witness :
    (8 = 8 ∨ 8 = 10 ∨ 8 = 12)
    ∧ get_adc_value 8 0x3A 0xBC
        = some (((0x3A &&& 0xF) <<< (8 - 4)) + (0xBC >>> (12 - 8))) :=
  ⟨Or.inl rfl, C2_adc_value_formula.1 8 0x3A 0xBC (Or.inl rfl)⟩

/-- C9: for resolutions 8, 10 and 12 and 8-bit frame bytes, the
reconstructed ADC code lies below `2 ^ bits` even without an explicit
mask. -/
theorem C9_adc_value_in_range (bits f1 f2 v : Nat)
    (hb : bits = 8 ∨ bits = 10 ∨ bits = 12)
    (h1 : f1 < 256) (h2 : f2 < 256)
    (hv : get_adc_value bits f1 f2 = some v) : v < 2 ^ bits := by
  have hnib : f1 &&& 15 ≤ 15 := Nat.and_le_right
  rcases hb with rfl | rfl | rfl
  · have hvx : v = ((f1 &&& 15) <<< 4) + (f2 >>> 4) :=
      Option.some_inj.mp (hv.symm.trans (get_adc_value_eq f1 f2).1)
    subst hvx
    rw [Nat.shiftLeft_eq, Nat.shiftRight_eq_div_pow]
    have hd : f2 / 2 ^ 4 < 16 := (Nat.div_lt_iff_lt_mul (by norm_num)).mpr (by omega)
    generalize f1 &&& 15 = a at hnib ⊢
    generalize f2 / 2 ^ 4 = b at hd ⊢
    norm_num
    omega
  · have hvx : v = ((f1 &&& 15) <<< 6) + (f2 >>> 2) :=
      Option.some_inj.mp (hv.symm.trans (get_adc_value_eq f1 f2).2.1)
    subst hvx
    rw [Nat.shiftLeft_eq, Nat.shiftRight_eq_div_pow]
    have hd : f2 / 2 ^ 2 < 64 := (Nat.div_lt_iff_lt_mul (by norm_num)).mpr (by omega)
    generalize f1 &&& 15 = a at hnib ⊢
    generalize f2 / 2 ^ 2 = b at hd ⊢
    norm_num
    omega
  · have hvx : v = ((f1 &&& 15) <<< 8) + (f2 >>> 0) :=
      Option.some_inj.mp (hv.symm.trans (get_adc_value_eq f1 f2).2.2)
    subst hvx
    rw [Nat.shiftLeft_eq, Nat.shiftRight_eq_div_pow]
    generalize f1 &&& 15 = a at hnib ⊢
    norm_num
    omega

/-- Witness for C9 at resolution 12, frames `0x0A`/`0xBC`. -/
theorem C9_adc_value_in_range_witness :
    (12 = 8 ∨ 12 = 10 ∨ 12 = 12) ∧ 0x0A < 256 ∧ 0xBC < 256
    ∧ get_adc_value 12 0x0A 0xBC = some 2748 ∧ 2748 < 2 ^ 12 :=
  ⟨by decide, by decide, by decide, by decide,
   C9_adc_value_in_range 12 0x0A 0xBC 2748 (by decide) (by decide) (by decide)
     (by decide)⟩

/-- C10: a reference voltage of exactly 0 is treated like an absent one —
`get_displayable_adc_value` renders the raw decimal code in both cases,
because the source tests the float's truthiness. -/
theorem C10_zero_reference_like_none (addr bits value : Nat) :
    get_displayable_adc_value ⟨addr, bits, some 0⟩ value = toString value
    ∧ get_displayable_adc_value ⟨addr, bits, some 0⟩ value
        = get_displayable_adc_value ⟨addr, bits, none⟩ value :=
  ⟨rfl, rfl⟩

/-- C3: for every byte, the enabled channels are exactly those whose bit
`4 + c` is set, in ascending channel order, and each feature pair is
present exactly under its bit condition (bit 3 set for "Ext Ref"; bits 2,
1, 0 clear for "Filter", "Bit Trial", "Samp. Del."), in declaration
order. -/
theorem C3_configuration_settings : ∀ b < 256,
    (get_configuration_settings b).1
      = ((List.range 4).filter (fun c => b.testBit (4 + c))).map (fun c => toString c)
    ∧ (get_configuration_settings b).2
      = ([(("External Reference", "Ext Ref"), b.testBit 3),
          (("SDA and SCL Filtering", "Filter"), !b.testBit 2),
          (("Bit Trial Delay", "Bit Trial"), !b.testBit 1),
          (("Sample Delay", "Samp. Del."), !b.testBit 0)].filter
            (fun f => f.2)).map (fun f => f.1) := by
  decide

/-- Witness for C3 at byte `0xF0`. -/
theorem C3_configuration_settings_witness :
    0xF0 < 256
    ∧ ((get_configuration_settings 0xF0).1
        = ((List.range 4).filter (fun c => Nat.testBit 0xF0 (4 + c))).map
            (fun c => toString c)
      ∧ (get_configuration_settings 0xF0).2
        = ([(("External Reference", "Ext Ref"), Nat.testBit 0xF0 3),
            (("SDA and SCL Filtering", "Filter"), !Nat.testBit 0xF0 2),
            (("Bit Trial Delay", "Bit Trial"), !Nat.testBit 0xF0 1),
            (("Sample Delay", "Samp. Del."), !Nat.testBit 0xF0 0)].filter
              (fun f => f.2)).map (fun f => f.1)) :=
  ⟨by decide, C3_configuration_settings 0xF0 (by decide)⟩

/-- A write transaction for device address `0b1001000`: header byte `0x90`
stored at position 0, configuration byte `0xF0` at position 1. -/
def demoWriteCfg : Config := ⟨0x48, 12, none⟩

/-- The packet store after the two `handle_marker` calls of the write
transaction. -/
def demoWritePkts : Packets :=
  (handle_marker (handle_marker [] (some 0) 0 0 0 0x90).1 (some 0) 1 0 0 0xF0).1

/-- C1: the claim that no exception ever propagates is violated — a bubble
or tabular request whose `frame_index` was never stored for an otherwise
complete, address-matching packet reaches `list.index`, which raises an
uncaught `ValueError`. -/
theorem C1_uncaught_valueerror :
    handle_bubble demoWriteCfg demoWritePkts (some 0) 5 0 = .error "ValueError"
    ∧ handle_tabular demoWriteCfg demoWritePkts (some 0) 5 0 = .error "ValueError" :=
  ⟨rfl, rfl⟩

/-- C4: for any stored transaction whose header value shifted right by 1
differs from the configured address, or whose frame count is not 2 for a
write (header bit 0 clear) or not 3 for a read (header bit 0 set),
`handle_bubble` returns `[]` and `handle_tabular` returns `[" "]` for every
annotated frame. -/
theorem C4_early_exits (cfg : Config) (pkts : Packets) (pid : PacketId)
    (af : Frame) (h0 : get_packet_nth_frame pkts pid 0 = some af)
    (hbad : af.value >>> 1 ≠ cfg.address
      ∨ (af.value &&& 0b1 = 0 ∧ (framesOf pkts pid).length ≠ 2)
      ∨ (af.value &&& 0b1 ≠ 0 ∧ (framesOf pkts pid).length ≠ 3)) :
    (∀ fi v, handle_bubble cfg pkts pid fi v = .ok [])
    ∧ (∀ fi v, handle_tabular cfg pkts pid fi v = .ok [.pyStr " "]) := by
  have hne : framesOf pkts pid ≠ [] := framesOf_ne_nil_of_nth pkts pid af h0
  have hplen : get_packet_length pkts pid = some (framesOf pkts pid).length :=
    get_packet_length_eq pkts pid hne
  by_cases haddr : af.value >>> 1 = cfg.address
  · rcases hbad with h | ⟨hw, hl⟩ | ⟨hr, hl⟩
    · exact absurd haddr h
    · rw [Nat.and_one_is_mod] at hw
      constructor <;> intro fi v
      · simp [handle_bubble, h0, hplen, haddr, hw, hl]
      · simp [handle_tabular, h0, hplen, haddr, hw, hl]
    · rw [Nat.and_one_is_mod] at hr
      have hr2 : af.value % 2 = 1 := (Nat.mod_two_eq_zero_or_one _).resolve_left hr
      constructor <;> intro fi v
      · simp [handle_bubble, h0, hplen, haddr, hr2, hl]
      · simp [handle_tabular, h0, hplen, haddr, hr2, hl]
  · constructor <;> intro fi v
    · simp [handle_bubble, h0, haddr]
    · simp [handle_tabular, h0, haddr]

/-- The packet store holding only the header frame of the write
transaction: one frame where two are required. -/
def demoIncompletePkts : Packets :=
  (handle_marker [] (some 0) 0 0 0 0x90).1

/-- Witness for C4: an incomplete write transaction (header only). -/
theorem C4_early_exits_witness :
    get_packet_nth_frame demoIncompletePkts (some 0) 0
        = some { frame_index := 0, frame_type := 0, flags := 0, value := 0x90 }
    ∧ ((0x90 : Nat) &&& 0b1 = 0 ∧ (framesOf demoIncompletePkts (some 0)).length ≠ 2)
    ∧ handle_bubble demoWriteCfg demoIncompletePkts (some 0) 0 0 = .ok []
    ∧ handle_tabular demoWriteCfg demoIncompletePkts (some 0) 0 0 = .ok [.pyStr " "] :=
  ⟨by decide, ⟨by decide, by decide⟩,
   (C4_early_exits demoWriteCfg demoIncompletePkts (some 0)
     { frame_index := 0, frame_type := 0, flags := 0, value := 0x90 } (by decide)
     (Or.inr (Or.inl ⟨by decide, by decide⟩))).1 0 0,
   (C4_early_exits demoWriteCfg demoIncompletePkts (some 0)
     { frame_index := 0, frame_type := 0, flags := 0, value := 0x90 } (by decide)
     (Or.inr (Or.inl ⟨by decide, by decide⟩))).2 0 0⟩

/-- Configuration for the read transaction: address `0b1001000`,
resolution 10, reference voltage 5. -/
def demoReadCfg : Config := ⟨0x48, 10, some 5⟩

/-- The packet store after the three `handle_marker` calls of a read
transaction: header `0x91`, data bytes `0x08` and `0x00` (ADC code 512). -/
def demoReadPkts : Packets :=
  (handle_marker (handle_marker (handle_marker [] (some 0) 0 0 0 0x91).1
      (some 0) 1 0 0 0x08).1 (some 0) 2 0 0 0x00).1

/-- Evaluation of `handle_bubble` on a valid read transaction at rank 2:
the result is the single-element list with the displayable ADC value. -/
theorem handle_bubble_read_rank2 (cfg : Config) (pkts : Packets)
    (pid : PacketId) (fi v : Nat) (af fr1 : Frame) (adc : Nat)
    (h0 : get_packet_nth_frame pkts pid 0 = some af)
    (haddr : af.value >>> 1 = cfg.address)
    (hread : af.value &&& 0b1 = 1)
    (hlen : get_packet_length pkts pid = some 3)
    (hrank : get_packet_frame_index pkts pid fi = some 2)
    (h1 : get_packet_nth_frame pkts pid 1 = some fr1)
    (hadc : get_adc_value cfg.bits fr1.value v = some adc) :
    handle_bubble cfg pkts pid fi v
      = .ok [.pyStr (get_displayable_adc_value cfg adc)] := by
  have hread2 : af.value % 2 = 1 := by rw [← Nat.and_one_is_mod]; exact hread
  simp [handle_bubble, h0, haddr, hlen, hrank, h1, hadc, hread2]

/-- C5 as stated is false: at resolution 10, reference 5.0 and code 512 the
rank-2 bubble result is the single-element list `["2.5000 V (512)"]`; the
claimed shorter variants `"2.5000 V"` and `"2.50"` are not produced. -/
theorem C5_counterexample :
    handle_bubble demoReadCfg demoReadPkts (some 0) 2 0
      = .ok [.pyStr "2.5000 V (512)"]
    ∧ PyVal.pyStr "2.50" ∉ [PyVal.pyStr "2.5000 V (512)"]
    ∧ PyVal.pyStr "2.5000 V" ∉ [PyVal.pyStr "2.5000 V (512)"] := by
  refine ⟨?_, by decide, by decide⟩
  rw [handle_bubble_read_rank2 demoReadCfg demoReadPkts (some 0) 2 0
    { frame_index := 0, frame_type := 0, flags := 0, value := 0x91 }
    { frame_index := 1, frame_type := 0, flags := 0, value := 0x08 }
    512 (by decide) (by decide) (by decide) (by decide) (by decide)
    (by decide) (by decide)]
  have hv : (((512 : Nat) : ℚ) / 2 ^ (10 : Nat)) * 5 = Rat.divInt 5 2 := by
    rw [Rat.divInt_eq_div]; norm_num
  show Except.ok [PyVal.pyStr (if pyFalsyFloat (some 5) then toString 512
      else format4 ((((512 : Nat) : ℚ) / 2 ^ (10 : Nat)) * ((some (5:ℚ)).getD 0))
           ++ " V (" ++ toString 512 ++ ")")] = _
  rw [Option.getD_some, hv]
  rfl

/-- C5 amended: for every valid read transaction with a configured nonzero
reference voltage, the rank-2 bubble request returns exactly one string,
the primary form `"<voltage to 4 decimal places> V (<raw code>)"`. -/
theorem C5_read_rank2_single_primary (cfg : Config) (pkts : Packets)
    (pid : PacketId) (fi v : Nat) (af fr1 : Frame) (r : ℚ) (adc : Nat)
    (h0 : get_packet_nth_frame pkts pid 0 = some af)
    (haddr : af.value >>> 1 = cfg.address)
    (hread : af.value &&& 0b1 = 1)
    (hlen : get_packet_length pkts pid = some 3)
    (hrank : get_packet_frame_index pkts pid fi = some 2)
    (h1 : get_packet_nth_frame pkts pid 1 = some fr1)
    (hadc : get_adc_value cfg.bits fr1.value v = some adc)
    (hr : cfg.reference_voltage = some r) (hr0 : r ≠ 0) :
    handle_bubble cfg pkts pid fi v
      = .ok [.pyStr (format4 (((adc : ℚ) / 2 ^ cfg.bits) * r)
          ++ " V (" ++ toString adc ++ ")")] := by
  rw [handle_bubble_read_rank2 cfg pkts pid fi v af fr1 adc h0 haddr hread
      hlen hrank h1 hadc]
  simp [get_displayable_adc_value, pyFalsyFloat, hr, hr0]

/-- Witness for C5's amended claim at the concrete read transaction. -/
theorem C5_read_rank2_single_primary_witness :
    handle_bubble demoReadCfg demoReadPkts (some 0) 2 0
      = .ok [.pyStr (format4 ((((512 : Nat) : ℚ) / 2 ^ (10 : Nat)) * 5)
          ++ " V (" ++ toString 512 ++ ")")] :=
  C5_read_rank2_single_primary demoReadCfg demoReadPkts (some 0) 2 0
    { frame_index := 0, frame_type := 0, flags := 0, value := 0x91 }
    { frame_index := 1, frame_type := 0, flags := 0, value := 0x08 }
    5 512 (by decide) (by decide) (by decide) (by decide) (by decide)
    (by decide) (by decide) rfl (by norm_num)

/-- C6 as stated is false: the write rank-1 bubble list has six entries,
not five (the last is `bin(value)`). -/
theorem C6_counterexample :
    handle_bubble demoWriteCfg demoWritePkts (some 0) 1 0xF0
      = .ok [.pyStr "Channels: 0, 1, 2, 3; Features: SDA and SCL Filtering, Bit Trial Delay, Sample Delay",
             .pyStr "Ch: 0/1/2/3; Feat: Filter/Bit Trial/Samp. Del.",
             .pyStr "Ch: 0/1/2/3; Feat: 0b0",
             .pyStr "Ch: 0/1/2/3",
             .pyStr "0/1/2/3",
             .pyStr "0b11110000"]
    ∧ ([PyVal.pyStr "Channels: 0, 1, 2, 3; Features: SDA and SCL Filtering, Bit Trial Delay, Sample Delay",
        PyVal.pyStr "Ch: 0/1/2/3; Feat: Filter/Bit Trial/Samp. Del.",
        PyVal.pyStr "Ch: 0/1/2/3; Feat: 0b0",
        PyVal.pyStr "Ch: 0/1/2/3",
        PyVal.pyStr "0/1/2/3",
        PyVal.pyStr "0b11110000"] : List PyVal).length ≠ 5 :=
  ⟨rfl, by decide⟩

/-- C6 amended: for every valid write transaction, the rank-1 bubble
request returns exactly six strings of decreasing verbosity, the last
being the raw configuration byte as a binary literal. -/
theorem C6_write_rank1_six_strings (cfg : Config) (pkts : Packets)
    (pid : PacketId) (fi v : Nat) (af : Frame)
    (h0 : get_packet_nth_frame pkts pid 0 = some af)
    (haddr : af.value >>> 1 = cfg.address)
    (hwrite : af.value &&& 0b1 = 0)
    (hlen : get_packet_length pkts pid = some 2)
    (hrank : get_packet_frame_index pkts pid fi = some 1) :
    handle_bubble cfg pkts pid fi v = .ok (writeConfigBubbles v)
    ∧ (writeConfigBubbles v).length = 6
    ∧ (writeConfigBubbles v).getLast? = some (.pyStr (pyBin v)) := by
  have hw2 : af.value % 2 = 0 := by rw [← Nat.and_one_is_mod]; exact hwrite
  refine ⟨?_, rfl, rfl⟩
  simp [handle_bubble, h0, haddr, hlen, hrank, hw2]

/-- Witness for C6's amended claim at the concrete write transaction. -/
theorem C6_write_rank1_six_strings_witness :
    handle_bubble demoWriteCfg demoWritePkts (some 0) 1 0xF0
        = .ok (writeConfigBubbles 0xF0)
    ∧ (writeConfigBubbles 0xF0).length = 6
    ∧ (writeConfigBubbles 0xF0).getLast? = some (.pyStr (pyBin 0xF0)) :=
  C6_write_rank1_six_strings demoWriteCfg demoWritePkts (some 0) 1 0xF0
    { frame_index := 0, frame_type := 0, flags := 0, value := 0x90 }
    (by decide) (by decide) (by decide) (by decide) (by decide)

/-- One frame-arrival event: the arguments of a `store_frame` call. -/
structure StoreOp where
  pid : PacketId
  fi : Nat
  ft : Nat
  fl : Nat
  v : Nat
deriving DecidableEq, Repr

/-- The frame a store operation would insert. -/
def StoreOp.frame (op : StoreOp) : Frame :=
  { frame_index := op.fi, frame_type := op.ft, flags := op.fl, value := op.v }

/-- Apply a sequence of `store_frame` calls in order. -/
def applyStores (pkts : Packets) : List StoreOp → Packets
  | [] => pkts
  | op :: ops => applyStores (store_frame pkts op.pid op.fi op.ft op.fl op.v) ops

/-- `setPacket` stores the given list under the given key. -/
theorem lookupPacket_setPacket_self (pkts : Packets) (pid : PacketId)
    (l : List Frame) : lookupPacket (setPacket pkts pid l) pid = some l := by
  induction pkts with
  | nil => simp [setPacket, lookupPacket]
  | cons hd tl ih =>
    obtain ⟨p, fs⟩ := hd
    by_cases h : p = pid
    · simp [setPacket, h, lookupPacket]
    · simp [setPacket, h, lookupPacket, ih]

/-- `setPacket` leaves other keys untouched. -/
theorem lookupPacket_setPacket_ne (pkts : Packets) (pid pid2 : PacketId)
    (l : List Frame) (h : pid2 ≠ pid) :
    lookupPacket (setPacket pkts pid l) pid2 = lookupPacket pkts pid2 := by
  have h2 : ¬ pid = pid2 := fun he => h he.symm
  induction pkts with
  | nil => simp [setPacket, lookupPacket, h2]
  | cons hd tl ih =>
    obtain ⟨p, fs⟩ := hd
    by_cases hp : p = pid
    · subst hp
      simp [setPacket, lookupPacket, h2]
    · simp [setPacket, hp, lookupPacket, ih]

/-- Effect of one `store_frame` call on its own packet's raw frame list:
a no-op when the position is already present, an append otherwise. -/
theorem framesOf_store_frame_self (pkts : Packets) (pid : PacketId)
    (fi ft fl v : Nat) :
    framesOf (store_frame pkts pid fi ft fl v) pid =
      if (framesOf pkts pid).any (fun f => f.frame_index == fi)
      then framesOf pkts pid
      else framesOf pkts pid ++
        [{ frame_index := fi, frame_type := ft, flags := fl, value := v }] := by
  unfold store_frame framesOf
  cases hl : lookupPacket pkts pid with
  | some l =>
    by_cases ha : l.any (fun f => f.frame_index == fi)
    · simp [hl, ha]
    · simp [hl, ha, lookupPacket_setPacket_self]
  | none =>
    simp [hl, lookupPacket_setPacket_self]

/-- A `store_frame` call does not touch other packets. -/
theorem framesOf_store_frame_ne (pkts : Packets) (pid pid2 : PacketId)
    (fi ft fl v : Nat) (h : pid2 ≠ pid) :
    framesOf (store_frame pkts pid fi ft fl v) pid2 = framesOf pkts pid2 := by
  unfold store_frame framesOf
  cases hl : lookupPacket pkts pid with
  | some l =>
    by_cases ha : l.any (fun f => f.frame_index == fi)
    · simp [hl, ha]
    · simp [hl, ha, lookupPacket_setPacket_ne _ _ _ _ h]
  | none =>
    simp [hl, lookupPacket_setPacket_self, lookupPacket_setPacket_ne _ _ _ _ h]

/-- After a run of `store_frame` calls, the stored positions of a packet
are exactly the starting positions plus the positions of the operations
aimed at it, and they stay duplicate-free. -/
theorem applyStores_indices (ops : List StoreOp) (pkts : Packets)
    (pid : PacketId)
    (hnd : ((framesOf pkts pid).map (fun f => f.frame_index)).Nodup) :
    ((framesOf (applyStores pkts ops) pid).map (fun f => f.frame_index)).Nodup
    ∧ (∀ x : Nat,
        x ∈ (framesOf (applyStores pkts ops) pid).map (fun f => f.frame_index)
        ↔ x ∈ (framesOf pkts pid).map (fun f => f.frame_index)
          ∨ x ∈ (ops.filter (fun o => o.pid = pid)).map (fun o => o.fi)) := by
  induction ops generalizing pkts with
  | nil => simpa [applyStores] using hnd
  | cons op ops ih =>
    simp only [applyStores]
    by_cases hp : op.pid = pid
    · rw [hp]
      have hstep := framesOf_store_frame_self pkts pid op.fi op.ft op.fl op.v
      have hfe : (List.filter (fun o => decide (o.pid = pid)) (op :: ops))
          = op :: List.filter (fun o => decide (o.pid = pid)) ops := by
        simp [List.filter_cons, hp]
      by_cases hdup : (framesOf pkts pid).any (fun f => f.frame_index == op.fi)
      · rw [if_pos hdup] at hstep
        have hmem : op.fi ∈ (framesOf pkts pid).map (fun f => f.frame_index) := by
          rcases List.any_eq_true.mp hdup with ⟨f, hf, he⟩
          exact List.mem_map.mpr ⟨f, hf, beq_iff_eq.mp he⟩
        have hnd2 : ((framesOf (store_frame pkts pid op.fi op.ft op.fl op.v) pid).map
            (fun f => f.frame_index)).Nodup := by rw [hstep]; exact hnd
        obtain ⟨ihn, ihm⟩ := ih (store_frame pkts pid op.fi op.ft op.fl op.v) hnd2
        refine ⟨ihn, fun x => ?_⟩
        rw [ihm x, hstep, hfe]
        simp only [List.map_cons, List.mem_cons]
        constructor
        · rintro (h | h)
          · exact Or.inl h
          · exact Or.inr (Or.inr h)
        · rintro (h | rfl | h)
          · exact Or.inl h
          · exact Or.inl hmem
          · exact Or.inr h
      · rw [if_neg hdup] at hstep
        have hnotmem : op.fi ∉ (framesOf pkts pid).map (fun f => f.frame_index) := by
          intro hm
          rcases List.mem_map.mp hm with ⟨f, hf, he⟩
          exact hdup (List.any_eq_true.mpr ⟨f, hf, beq_iff_eq.mpr he⟩)
        have hnd2 : ((framesOf (store_frame pkts pid op.fi op.ft op.fl op.v) pid).map
            (fun f => f.frame_index)).Nodup := by
          rw [hstep, List.map_append, List.nodup_append]
          refine ⟨hnd, by simp, ?_⟩
          intro a ha hb
          simp only [List.map_cons, List.map_nil, List.mem_singleton] at hb
          subst hb
          exact hnotmem ha
        obtain ⟨ihn, ihm⟩ := ih (store_frame pkts pid op.fi op.ft op.fl op.v) hnd2
        refine ⟨ihn, fun x => ?_⟩
        rw [ihm x, hstep, hfe]
        simp only [List.map_append, List.map_cons, List.map_nil, List.mem_append,
          List.mem_cons, List.mem_singleton]
        tauto
    · have hstep := framesOf_store_frame_ne pkts op.pid pid op.fi op.ft op.fl op.v
        (fun he => hp he.symm)
      have hnd2 : ((framesOf (store_frame pkts op.pid op.fi op.ft op.fl op.v) pid).map
          (fun f => f.frame_index)).Nodup := by rw [hstep]; exact hnd
      obtain ⟨ihn, ihm⟩ := ih (store_frame pkts op.pid op.fi op.ft op.fl op.v) hnd2
      refine ⟨ihn, fun x => ?_⟩
      rw [ihm x, hstep]
      simp [List.filter_cons, hp]

/-- C7: at most one frame per distinct position is retained and the first
write wins: a `store_frame` call whose position is already present leaves
the entire packet store unchanged, and after any run of calls a packet's
frame count equals the number of distinct positions recorded for it. -/
theorem C7_first_write_wins :
    (∀ (pkts : Packets) (pid : PacketId) (fi ft fl v : Nat),
      (∃ f ∈ framesOf pkts pid, f.frame_index = fi) →
      store_frame pkts pid fi ft fl v = pkts)
    ∧ (∀ (ops : List StoreOp) (pid : PacketId),
      (framesOf (applyStores [] ops) pid).length
        = ((ops.filter (fun o => o.pid = pid)).map (fun o => o.fi)).dedup.length) := by
  constructor
  · rintro pkts pid fi ft fl v ⟨f, hf, he⟩
    unfold framesOf at hf
    unfold store_frame
    cases hl : lookupPacket pkts pid with
    | none => rw [hl] at hf; simp at hf
    | some l =>
      rw [hl] at hf
      simp only [Option.getD_some] at hf
      have ha : l.any (fun g => g.frame_index == fi) = true :=
        List.any_eq_true.mpr ⟨f, hf, beq_iff_eq.mpr he⟩
      simp [hl, ha]
  · intro ops pid
    have h0 : ((framesOf [] pid).map (fun f => f.frame_index)).Nodup := by
      simp [framesOf, lookupPacket]
    obtain ⟨hn, hm⟩ := applyStores_indices ops [] pid h0
    set L := (framesOf (applyStores [] ops) pid).map (fun f => f.frame_index) with hL
    set M := (ops.filter (fun o => o.pid = pid)).map (fun o => o.fi) with hM
    have hmem : ∀ x, x ∈ L ↔ x ∈ M := by
      intro x
      rw [hm x]
      simp [framesOf, lookupPacket]
    have hlen1 : (framesOf (applyStores [] ops) pid).length = L.length := by
      rw [hL, List.length_map]
    rw [hlen1]
    have hfs : L.toFinset = M.toFinset := by
      ext a
      simp only [List.mem_toFinset]
      exact hmem a
    calc L.length = L.toFinset.card := (List.toFinset_card_of_nodup hn).symm
      _ = M.toFinset.card := by rw [hfs]
      _ = M.dedup.length := List.card_toFinset M

/-- Witness for C7: re-storing position 1 of the stored write transaction
with different type, flags and value leaves the store unchanged. -/
theorem C7_first_write_wins_witness :
    (∃ f ∈ framesOf demoWritePkts (some 0), f.frame_index = 1)
    ∧ store_frame demoWritePkts (some 0) 1 9 9 9 = demoWritePkts :=
  ⟨⟨{ frame_index := 1, frame_type := 0, flags := 0, value := 0xF0 },
      by decide, by decide⟩,
   C7_first_write_wins.1 demoWritePkts (some 0) 1 9 9 9
     ⟨{ frame_index := 1, frame_type := 0, flags := 0, value := 0xF0 },
      by decide, by decide⟩⟩

/-- When every operation targets the same packet and the positions are
fresh and duplicate-free, `applyStores` appends the corresponding frames
in arrival order. -/
theorem framesOf_applyStores_eq (ops : List StoreOp) :
    ∀ (pkts : Packets) (pid : PacketId), (∀ o ∈ ops, o.pid = pid) →
    ((((framesOf pkts pid).map (fun f => f.frame_index))
        ++ ops.map (fun o => o.fi)).Nodup) →
    framesOf (applyStores pkts ops) pid
      = framesOf pkts pid ++ ops.map StoreOp.frame := by
  induction ops with
  | nil => intro pkts pid hall hnd; simp [applyStores]
  | cons op ops ih =>
    intro pkts pid hall hnd
    have hp : op.pid = pid := hall op (List.mem_cons_self op ops)
    simp only [applyStores]
    rw [hp]
    have hstep := framesOf_store_frame_self pkts pid op.fi op.ft op.fl op.v
    have hnotmem : op.fi ∉ (framesOf pkts pid).map (fun f => f.frame_index) := by
      rw [List.nodup_append] at hnd
      intro hm
      exact hnd.2.2 hm (by simp)
    have hdup : ¬ ((framesOf pkts pid).any (fun f => f.frame_index == op.fi)) = true := by
      intro ha
      rcases List.any_eq_true.mp ha with ⟨f, hf, he⟩
      exact hnotmem (List.mem_map.mpr ⟨f, hf, beq_iff_eq.mp he⟩)
    rw [if_neg hdup] at hstep
    have hnd2 : (((framesOf (store_frame pkts pid op.fi op.ft op.fl op.v) pid).map
        (fun f => f.frame_index)) ++ ops.map (fun o => o.fi)).Nodup := by
      rw [hstep, List.map_append]
      simp only [List.map_cons, List.map_nil]
      rw [List.append_assoc]
      simpa using hnd
    rw [ih (store_frame pkts pid op.fi op.ft op.fl op.v) pid
        (fun o ho => hall o (List.mem_cons_of_mem _ ho)) hnd2, hstep]
    simp [StoreOp.frame, List.append_assoc]

/-- Strict version of the sort-key ordering. -/
def frameLT (a b : Frame) : Prop := a.frame_index < b.frame_index

/-- C8: frames with pairwise distinct positions come back from
`get_packet_frames` sorted ascending by position, independently of
arrival order: two permuted runs of `store_frame` calls over the same
frames produce the same sequence. -/
theorem C8_order_independent_sorting (ops1 ops2 : List StoreOp)
    (pid : PacketId) (hperm : ops1.Perm ops2)
    (hall : ∀ o ∈ ops1, o.pid = pid)
    (hnd : (ops1.map (fun o => o.fi)).Nodup) :
    List.Sorted frameLE (get_packet_frames (applyStores [] ops1) pid)
    ∧ get_packet_frames (applyStores [] ops1) pid
        = get_packet_frames (applyStores [] ops2) pid := by
  have hall2 : ∀ o ∈ ops2, o.pid = pid := fun o ho => hall o (hperm.mem_iff.mpr ho)
  have hpermfi : (ops1.map (fun o => o.fi)).Perm (ops2.map (fun o => o.fi)) :=
    hperm.map _
  have hnd2 : (ops2.map (fun o => o.fi)).Nodup := hpermfi.nodup_iff.mp hnd
  have hnil : framesOf ([] : Packets) pid = [] := rfl
  have e1 := framesOf_applyStores_eq ops1 [] pid hall (by rw [hnil]; simpa using hnd)
  have e2 := framesOf_applyStores_eq ops2 [] pid hall2 (by rw [hnil]; simpa using hnd2)
  rw [hnil, List.nil_append] at e1 e2
  refine ⟨List.sorted_insertionSort frameLE _, ?_⟩
  unfold get_packet_frames
  rw [e1, e2]
  have hpl : (ops1.map StoreOp.frame).Perm (ops2.map StoreOp.frame) := hperm.map _
  have hsp : (List.insertionSort frameLE (ops1.map StoreOp.frame)).Perm
      (List.insertionSort frameLE (ops2.map StoreOp.frame)) :=
    ((List.perm_insertionSort frameLE _).trans hpl).trans
      (List.perm_insertionSort frameLE _).symm
  have hidx1 : ((List.insertionSort frameLE (ops1.map StoreOp.frame)).map
      (fun f => f.frame_index)).Nodup := by
    have hpm := (List.perm_insertionSort frameLE (ops1.map StoreOp.frame)).map
      (fun f : Frame => f.frame_index)
    refine hpm.nodup_iff.mpr ?_
    simpa [List.map_map, Function.comp_def, StoreOp.frame] using hnd
  have hidx2 : ((List.insertionSort frameLE (ops2.map StoreOp.frame)).map
      (fun f => f.frame_index)).Nodup := by
    have hpm := (List.perm_insertionSort frameLE (ops2.map StoreOp.frame)).map
      (fun f : Frame => f.frame_index)
    refine hpm.nodup_iff.mpr ?_
    simpa [List.map_map, Function.comp_def, StoreOp.frame] using hnd2
  have hs1 : List.Sorted frameLT (List.insertionSort frameLE (ops1.map StoreOp.frame)) := by
    have hle := List.sorted_insertionSort frameLE (ops1.map StoreOp.frame)
    have hne := List.pairwise_map.mp hidx1
    exact (hle.and hne).imp (fun h => Nat.lt_of_le_of_ne h.1 h.2)
  have hs2 : List.Sorted frameLT (List.insertionSort frameLE (ops2.map StoreOp.frame)) := by
    have hle := List.sorted_insertionSort frameLE (ops2.map StoreOp.frame)
    have hne := List.pairwise_map.mp hidx2
    exact (hle.and hne).imp (fun h => Nat.lt_of_le_of_ne h.1 h.2)
  haveI : IsAntisymm Frame frameLT := ⟨fun a b h1 h2 => absurd h2 (Nat.lt_asymm h1)⟩
  exact List.eq_of_perm_of_sorted hsp hs1 hs2

/-- Witness for C8: storing positions 1, 0, 2 or 0, 1, 2 yields the same
sorted sequence. -/
theorem C8_order_independent_sorting_witness :
    ([⟨some 0, 1, 0, 0, 10⟩, ⟨some 0, 0, 0, 0, 20⟩, ⟨some 0, 2, 0, 0, 30⟩] :
        List StoreOp).Perm
      [⟨some 0, 0, 0, 0, 20⟩, ⟨some 0, 1, 0, 0, 10⟩, ⟨some 0, 2, 0, 0, 30⟩]
    ∧ (∀ o ∈ ([⟨some 0, 1, 0, 0, 10⟩, ⟨some 0, 0, 0, 0, 20⟩,
          ⟨some 0, 2, 0, 0, 30⟩] : List StoreOp), o.pid = some 0)
    ∧ (([⟨some 0, 1, 0, 0, 10⟩, ⟨some 0, 0, 0, 0, 20⟩,
          ⟨some 0, 2, 0, 0, 30⟩] : List StoreOp).map (fun o => o.fi)).Nodup
    ∧ (List.Sorted frameLE (get_packet_frames (applyStores []
          [⟨some 0, 1, 0, 0, 10⟩, ⟨some 0, 0, 0, 0, 20⟩,
           ⟨some 0, 2, 0, 0, 30⟩]) (some 0))
      ∧ get_packet_frames (applyStores []
          [⟨some 0, 1, 0, 0, 10⟩, ⟨some 0, 0, 0, 0, 20⟩,
           ⟨some 0, 2, 0, 0, 30⟩]) (some 0)
        = get_packet_frames (applyStores []
          [⟨some 0, 0, 0, 0, 20⟩, ⟨some 0, 1, 0, 0, 10⟩,
           ⟨some 0, 2, 0, 0, 30⟩]) (some 0)) :=
  ⟨by decide, by decide, by decide,
   C8_order_independent_sorting
     [⟨some 0, 1, 0, 0, 10⟩, ⟨some 0, 0, 0, 0, 20⟩, ⟨some 0, 2, 0, 0, 30⟩]
     [⟨some 0, 0, 0, 0, 20⟩, ⟨some 0, 1, 0, 0, 10⟩, ⟨some 0, 2, 0, 0, 30⟩]
     (some 0) (by decide) (by decide) (by decide)⟩

end AD799x
